import Mathlib

/-!
Verification of the mint and genesis core of the mixin kernel
(`kernel/mint.go`, `kernel/genesis.go`).

Amounts are `common.Integer` values: nonnegative fixed-point decimals.
That package is outside the sources under review, so it is modelled from
the specification: an amount is represented by its raw count of
`10^-8` units (a `Nat`), `NewInteger x` scales a whole number,
addition and multiplication by a scalar are exact, division by a
positive scalar is floor division on the raw units, and
`ration(d).product(base)` computes `⌊w * base / d⌋` on raw units.
Subtraction, which the source only applies when the result is
nonnegative, is truncated `Nat` subtraction.

Store reads (last mint distribution, per-node works, consensus
threshold, aggregator readiness, custodian, state table) are passed to
the modelled functions as explicit arguments.
-/

/-- Modelled from the spec: `common.Integer` fixed-point scale, `10^8`
raw units per whole unit. -/
def PRECISION : Nat := 100000000

/-- Modelled from the spec: `common.NewInteger x` is the amount of `x`
whole units, as raw units. -/
def NewInteger (x : Nat) : Nat := x * PRECISION

/-- Modelled from the spec: `ration(d)` followed by `product(base)`
returns `⌊w · base / d⌋` without intermediate loss. -/
def rationProduct (w d base : Nat) : Nat := w * base / d

/-- `MintPool = common.NewInteger(500000)` (mint.go `init`). -/
def MintPool : Nat := NewInteger 500000

/-- `MintLiquidity = common.NewInteger(500000)` (mint.go `init`). -/
def MintLiquidity : Nat := NewInteger 500000

/-- `MintYearShares = 10` (mint.go `init`). -/
def MintYearShares : Nat := 10

/-- `MintYearBatches = 365` (mint.go `init`). -/
def MintYearBatches : Nat := 365

/-- `MintNodeMaximum = 50` (mint.go `init`). -/
def MintNodeMaximum : Nat := 50

/-- `MainnetMintPeriodForkBatch = 72` (mint.go). -/
def MainnetMintPeriodForkBatch : Nat := 72

/-- `MainnetMintPeriodForkTimeBegin = 6` (mint.go). -/
def MainnetMintPeriodForkTimeBegin : Nat := 6

/-- `MainnetMintPeriodForkTimeEnd = 18` (mint.go). -/
def MainnetMintPeriodForkTimeEnd : Nat := 18

/-- `MainnetMintTransactionV2ForkBatch = 739` (mint.go). -/
def MainnetMintTransactionV2ForkBatch : Nat := 739

/-- `MainnetMintTransactionV3ForkBatch = 1313` (mint.go). -/
def MainnetMintTransactionV3ForkBatch : Nat := 1313

/-- Nanoseconds per hour, the literal `3600000000000` of the gates. -/
def hourNs : Nat := 3600000000000

/-- Nanoseconds per day, `uint64(time.Hour) * 24` of the distributor. -/
def dayNs : Nat := 86400000000000

/-- One iteration step of the yearly mint loops shared by
`poolSizeUniversal`, `poolSizeLegacy` and `pledgeAmount`:
`year := pool.Div(MintYearShares); mint = mint.Add(f pool);
pool = pool.Sub(year)`. The first component accumulates `mint`
(or `liquidity`), the second is the remaining `pool`; `f` is the
per-year increment of the first component. -/
def mintIter (f : Nat → Nat) : Nat → Nat × Nat → Nat × Nat
  | 0, s => s
  | n + 1, s =>
    ((mintIter f n s).1 + f (mintIter f n s).2,
     (mintIter f n s).2 - (mintIter f n s).2 / MintYearShares)

/-- Per-year mint increment of `poolSizeUniversal`: `year = pool/10`. -/
def fU (p : Nat) : Nat := p / MintYearShares

/-- Per-day share of `poolSizeUniversal`:
`day = pool/MintYearShares/MintYearBatches`. -/
def gU (p : Nat) : Nat := p / MintYearShares / MintYearBatches

/-- Per-year mint increment of `poolSizeLegacy`:
`year.Div(10).Mul(9)` with `year = pool/10`. -/
def fL (p : Nat) : Nat := p / MintYearShares / 10 * 9

/-- Per-day share of `poolSizeLegacy`: `day.Div(10).Mul(9)` with
`day = pool/MintYearShares/MintYearBatches`. -/
def gL (p : Nat) : Nat := p / MintYearShares / MintYearBatches / 10 * 9

/-- `poolSizeUniversal` (mint.go lines 248-263). -/
def poolSizeUniversal (batch : Nat) : Nat :=
  let s := mintIter fU (batch / MintYearBatches) (0, MintPool)
  let mint :=
    if 0 < batch % MintYearBatches then
      s.1 + gU s.2 * (batch % MintYearBatches)
    else s.1
  if 0 < mint then MintPool - mint else MintPool

/-- `poolSizeLegacy` (mint.go lines 265-280). -/
def poolSizeLegacy (batch : Nat) : Nat :=
  let s := mintIter fL (batch / MintYearBatches) (0, MintPool)
  let mint :=
    if 0 < batch % MintYearBatches then
      s.1 + gL s.2 * (batch % MintYearBatches)
    else s.1
  if 0 < mint then MintPool - mint else MintPool

/-- `pledgeAmount` (mint.go lines 290-299); `sinceEpoch` in ns. -/
def pledgeAmount (sinceEpoch : Nat) : Nat :=
  let batch := sinceEpoch / hourNs / 24
  (mintIter fU (batch / MintYearBatches) (MintLiquidity, MintPool)).1 /
    MintNodeMaximum

/-- `Node.PledgeAmount` (mint.go lines 282-288); `epoch` is
`node.Epoch`. -/
def PledgeAmount (epoch ts : Nat) : Nat :=
  if ts < epoch then pledgeAmount 0 else pledgeAmount (ts - epoch)

/-- The persisted `MintDistribution` record read through
`ReadLastMintDistribution` / `ReadMintDistributions`. -/
structure MintDistribution where
  batch : Nat
  amount : Nat
  group : String
deriving DecidableEq

/-- `batch := hours / 24` with `hours := (timestamp - Epoch) / 1h`,
as computed by both gates. -/
def gateBatch (epoch ts : Nat) : Nat := (ts - epoch) / hourNs / 24

/-- `hours % 24`, the hour of day tested against the mint window. -/
def gateHourOfDay (epoch ts : Nat) : Nat := (ts - epoch) / hourNs % 24

/-- The pool after the gate loop
`for i < batch/MintYearBatches { pool = pool.Sub(pool.Div(MintYearShares)) }`
starting from `MintPool` (mint.go lines 438-441 and 489-492). -/
def gatePool : Nat → Nat
  | 0 => MintPool
  | n + 1 => gatePool n - gatePool n / MintYearShares

/-- `total := pool.Div(MintYearShares).Div(MintYearBatches)` of the
universal gate: the universal per-batch (daily) share. -/
def universalPerBatch (batch : Nat) : Nat :=
  gatePool (batch / MintYearBatches) / MintYearShares / MintYearBatches

/-- `full := light.Mul(9)` with `light := total.Div(10)` of the legacy
gate: the legacy per-batch amount. -/
def legacyPerBatch (batch : Nat) : Nat :=
  universalPerBatch batch / 10 * 9

/-- Effective lower bound of the legacy mint window (mint.go lines
480-484). -/
def legacyKmb (mainnet : Bool) (batch kmb : Nat) : Nat :=
  if mainnet = true ∧ batch < MainnetMintPeriodForkBatch then
    MainnetMintPeriodForkTimeBegin
  else kmb

/-- Effective upper bound of the legacy mint window (mint.go lines
480-484). -/
def legacyKme (mainnet : Bool) (batch kme : Nat) : Nat :=
  if mainnet = true ∧ batch < MainnetMintPeriodForkBatch then
    MainnetMintPeriodForkTimeEnd
  else kme

/-- `checkUniversalMintPossibility` (mint.go lines 422-467).
`kmb`/`kme` are `config.KernelMintTimeBegin/End`; `dist` the record
returned by `ReadLastMintDistribution`. -/
def checkUniversalMintPossibility (kmb kme epoch ts : Nat)
    (validateOnly : Bool) (dist : MintDistribution) : Nat × Nat :=
  if ts ≤ epoch then (0, 0)
  else if gateBatch epoch ts < 1 then (0, 0)
  else if gateHourOfDay epoch ts < kmb ∨ kme < gateHourOfDay epoch ts then
    (0, 0)
  else if gateBatch epoch ts < dist.batch then (0, 0)
  else if gateBatch epoch ts = dist.batch then
    (if validateOnly then (gateBatch epoch ts, dist.amount) else (0, 0))
  else
    (gateBatch epoch ts,
     universalPerBatch (gateBatch epoch ts) *
       (gateBatch epoch ts - dist.batch))

/-- `checkLegacyMintPossibility` (mint.go lines 469-520). -/
def checkLegacyMintPossibility (kmb kme epoch : Nat) (mainnet : Bool)
    (ts : Nat) (validateOnly : Bool) (dist : MintDistribution) :
    Nat × Nat :=
  if ts ≤ epoch then (0, 0)
  else if gateBatch epoch ts < 1 then (0, 0)
  else if gateHourOfDay epoch ts < legacyKmb mainnet (gateBatch epoch ts) kmb ∨
      legacyKme mainnet (gateBatch epoch ts) kme < gateHourOfDay epoch ts then
    (0, 0)
  else if gateBatch epoch ts < dist.batch then (0, 0)
  else if gateBatch epoch ts = dist.batch then
    (if validateOnly then (gateBatch epoch ts, dist.amount) else (0, 0))
  else
    (gateBatch epoch ts,
     legacyPerBatch (gateBatch epoch ts) *
       (gateBatch epoch ts - dist.batch))

/-- Raw work of one node from its `[2]uint64` aggregate `w`:
`NewInteger(w[0]).Mul(120).Div(100)` plus `NewInteger(w[1])` when the
signed component is positive (mint.go lines 601-606). -/
def rawWork (w : Nat × Nat) : Nat :=
  let work := NewInteger w.1 * 120 / 100
  if 0 < w.2 then work + NewInteger w.2 else work

/-- Statistics accumulated over the raw works (mint.go lines 592-620):
count of nonzero works, their minimum, maximum and sum. -/
structure WorkStats where
  valid : Nat
  minW : Nat
  maxW : Nat
  totalW : Nat
deriving DecidableEq

/-- One iteration of the statistics loop: zero works are skipped
(`continue`); `minW` starts at zero and is replaced on the first
nonzero work. -/
def statsStep (s : WorkStats) (w : Nat) : WorkStats :=
  if w = 0 then s
  else
    { valid := s.valid + 1
      minW := if s.minW = 0 then w else if w < s.minW then w else s.minW
      maxW := if s.maxW < w then w else s.maxW
      totalW := s.totalW + w }

/-- The statistics loop over all raw works. -/
def workStats (ws : List Nat) : WorkStats :=
  ws.foldl statsStep ⟨0, 0, 0, 0⟩

/-- The clamp of one node's work against the average (mint.go lines
633-644): `upper = avg.Mul(7)`, `lower = avg.Div(7)`. -/
def clampWork (avg w : Nat) : Nat :=
  if avg * 7 ≤ w then avg * 2
  else if avg ≤ w then w / 6 + avg * 5 / 6
  else if w ≤ avg / 7 then avg / 7
  else w

/-- Failure cases of the distributor: the fatal invalid-day panic, the
aggregator not ready, and the two "not valid" rejections. -/
inductive DistErr where
  | panicDay
  | notReady
  | notValid
deriving DecidableEq

/-- `distributeKernelMintByWorks` (mint.go lines 557-651). The store
reads are abstracted: `ready` is the outcome of
`validateWorksAndSpacesAggregator`, `thr` the consensus threshold, and
`works` the `(produced, signed)` pair of each accepted node, in node
order, as returned by `ListNodeWorks` for day `day - 1`. The result is
the `Work` share of each node, in the same order. -/
def distributeKernelMintByWorks (epoch timestamp : Nat) (ready : Bool)
    (thr : Nat) (works : List (Nat × Nat)) (base : Nat) :
    Except DistErr (List Nat) :=
  let epochDay := epoch / dayNs
  let day := timestamp / dayNs
  if day < epochDay then .error .panicDay
  else if day - epochDay = 0 then
    .ok (works.map fun _ => base / works.length)
  else if ready = false then .error .notReady
  else
    let raws := works.map rawWork
    let s := workStats raws
    if s.valid < thr then .error .notValid
    else
      let avg := (s.totalW - s.minW - s.maxW) / (s.valid - 2)
      if avg = 0 then .error .notValid
      else
        let clamped := raws.map (clampWork avg)
        let totalW := clamped.sum
        .ok (clamped.map fun w => rationProduct w totalW base)

/-- Outcomes of the builders other than a built transaction: the gate
returned nothing, the distributor failed, one of the two fatal
overshoot checks fired, the slash helper's consistency panic fired, or
(legacy only) the result is a pinned historical transaction or the V1
builder, both outside the modelled path. -/
inductive BuildErr where
  | noMint
  | distFail : DistErr → BuildErr
  | overshoot
  | slashPanic
  | pinnedHack
  | delegatedV1
deriving DecidableEq

/-- The amount content of a built mint transaction: the final mint
input amount and the list of output amounts in order. -/
structure BuiltTx where
  inputAmount : Nat
  outputs : List Nat
deriving DecidableEq

/-- `tryToSlashLegacyLightPool` (mint.go lines 220-235) as a function
of the input amount: `prev` is `ReadMintDistributions(batch-1, 1)[0]`
and `curGroup` the group of the current mint input. `none` is the
consistency panic. -/
def trySlash (mainnet : Bool) (batch : Nat) (prev : MintDistribution)
    (curGroup : String) (amount : Nat) : Option Nat :=
  if mainnet = false ∨ batch < MainnetMintTransactionV3ForkBatch then
    some amount
  else if prev.batch + 1 ≠ batch then none
  else if prev.group = curGroup then some amount
  else
    some (amount + (poolSizeLegacy prev.batch - poolSizeUniversal prev.batch))

/-- `buildUniversalMintTransaction` (mint.go lines 160-218), at the
level of amounts. Outputs are the per-node kernel shares, then the
custodian `safe` output, then the light output. -/
def buildUniversalMintTransaction (kmb kme epoch ts : Nat)
    (validateOnly : Bool) (dist : MintDistribution) (ready : Bool)
    (thr : Nat) (works : List (Nat × Nat)) (mainnet : Bool)
    (prev : MintDistribution) (curGroup : String) :
    Except BuildErr BuiltTx :=
  let p := checkUniversalMintPossibility kmb kme epoch ts validateOnly dist
  if p.2 = 0 ∨ p.1 = 0 then .error .noMint
  else
    let kernel := p.2 / 10 * 5
    match distributeKernelMintByWorks epoch ts ready thr works kernel with
    | .error e => .error (.distFail e)
    | .ok mints =>
      let total := mints.sum
      if p.2 < total then .error .overshoot
      else
        let safe := p.2 / 10 * 4
        if p.2 < total + safe then .error .overshoot
        else
          match trySlash mainnet p.1 prev curGroup p.2 with
          | none => .error .slashPanic
          | some amount =>
            .ok ⟨amount, mints ++ [safe, amount - (total + safe)]⟩

/-- `buildLegacyKerneNodeMintTransaction` (mint.go lines 301-355), at
the level of amounts. `hackAt` is whether
`TransactionMintWorkHacks[batch]` is nonempty; that path and the V1
delegation return results outside the modelled path. The `DIFF`
output is appended only when positive. -/
def buildLegacyKerneNodeMintTransaction (kmb kme epoch : Nat)
    (mainnet : Bool) (ts : Nat) (validateOnly : Bool)
    (dist : MintDistribution) (hackAt : Bool) (ready : Bool)
    (thr : Nat) (works : List (Nat × Nat)) : Except BuildErr BuiltTx :=
  let p := checkLegacyMintPossibility kmb kme epoch mainnet ts validateOnly dist
  if p.2 = 0 ∨ p.1 = 0 then .error .noMint
  else if mainnet = true ∧ hackAt = true then .error .pinnedHack
  else if mainnet = true ∧ p.1 < MainnetMintTransactionV2ForkBatch then
    .error .delegatedV1
  else
    match distributeKernelMintByWorks epoch ts ready thr works p.2 with
    | .error e => .error (.distFail e)
    | .ok mints =>
      let total := mints.sum
      if p.2 < total then .error .overshoot
      else
        let diff := p.2 - total
        if 0 < diff then .ok ⟨p.2, mints ++ [diff]⟩
        else .ok ⟨p.2, mints⟩

/-- `MinimumNodeCount = 7` (genesis.go). -/
def MinimumNodeCount : Nat := 7

/-- `PledgeAmount = 10000` (genesis.go); renamed to avoid the clash
with the mint.go method of the same name. -/
def GenesisPledgeAmount : Nat := 10000

/-- A genesis address: the two public keys, abstracted to opaque
numeric identifiers. The string form used as the duplicate-filter key
is the canonical encoding of the pair, so address equality coincides
with string-key equality. -/
structure GAddress where
  publicSpendKey : Nat
  publicViewKey : Nat
deriving DecidableEq

/-- One node entry of the genesis file; `balance` in raw units. -/
structure GNode where
  address : GAddress
  balance : Nat
deriving DecidableEq

/-- The parsed genesis file. -/
structure Genesis where
  epoch : Int
  nodes : List GNode
deriving DecidableEq

/-- Errors of `readGenesis` and `LoadGenesis`. -/
inductive GenesisErr where
  | inputsNumber
  | inputAmount
  | duplicated
  | keyFormat
  | networkMismatch
deriving DecidableEq

/-- The validation loop of `readGenesis` (genesis.go lines 140-157).
`deriveView` abstracts
`crypto.NewKeyFromSeed(hash(spend) ‖ hash(spend)).Public()`.
The address re-parse of its own canonical string never fails and is
not modelled. NOTE: the source declares `inputsFilter` but never
inserts into it, so the filter stays empty through the loop; the
model mirrors that by passing `filter` along unchanged. -/
def readGenesisLoop (deriveView : Nat → Nat) (filter : List GAddress) :
    List GNode → Except GenesisErr Unit
  | [] => .ok ()
  | n :: rest =>
    if n.balance < NewInteger GenesisPledgeAmount then .error .inputAmount
    else if n.address ∈ filter then .error .duplicated
    else if deriveView n.address.publicSpendKey ≠ n.address.publicViewKey then
      .error .keyFormat
    else readGenesisLoop deriveView filter rest

/-- `readGenesis` (genesis.go lines 125-159), after a successful file
read and JSON parse. -/
def readGenesis (deriveView : Nat → Nat) (g : Genesis) :
    Except GenesisErr Genesis :=
  if g.nodes.length ≠ MinimumNodeCount then .error .inputsNumber
  else
    match readGenesisLoop deriveView [] g.nodes with
    | .error e => .error e
    | .ok _ => .ok g

/-- Observable outcome of `LoadGenesis`: the error if any, whether
`SnapshotsLoadGenesis` ran, and the value written to the state table
under `"network"` if any. -/
structure LoadResult where
  err : Option GenesisErr
  snapshotsPersisted : Bool
  networkKeyWritten : Option Nat
deriving DecidableEq

/-- `LoadGenesis` (genesis.go lines 26-123) at the level of the
network-id state check. `hashG` abstracts
`crypto.NewHash(json.Marshal(gns))`; `stored` is the record found by
`StateGet("network")`, `none` when absent. The zero value that
`state.Id` has when no record is found is modelled as `0`. -/
def LoadGenesis (deriveView : Nat → Nat) (hashG : Genesis → Nat)
    (g : Genesis) (stored : Option Nat) : LoadResult :=
  match readGenesis deriveView g with
  | .error e => ⟨some e, false, none⟩
  | .ok gns =>
    let networkId := hashG gns
    let stateId := stored.getD 0
    if stateId = networkId then ⟨none, false, none⟩
    else if stored.isSome then ⟨some .networkMismatch, false, none⟩
    else ⟨none, true, some networkId⟩

/-- Equality of `Except` results is decidable when both components
are. -/
instance {e a : Type} [DecidableEq e] [DecidableEq a] :
    DecidableEq (Except e a) := fun
  | .error x, .error y =>
    if h : x = y then .isTrue (by rw [h])
    else .isFalse (by intro hc; injection hc; contradiction)
  | .error _, .ok _ => .isFalse (by intro hc; exact Except.noConfusion hc)
  | .ok _, .error _ => .isFalse (by intro hc; exact Except.noConfusion hc)
  | .ok x, .ok y =>
    if h : x = y then .isTrue (by rw [h])
    else .isFalse (by intro hc; injection hc; contradiction)

/-! ### Concrete inputs used by witnesses and counterexamples -/

/-- Work pairs giving display works `[0, 100, 100, 100, 100, 100, 1000]`:
`50·120/100 + 40 = 100` and `500·120/100 + 400 = 1000`. -/
def c3works : List (Nat × Nat) :=
  [(0, 0), (50, 40), (50, 40), (50, 40), (50, 40), (50, 40), (500, 400)]

/-- The shares the distributor actually returns on `c3works` with base
700: `[13.99999999, 97.99999999 ×5, 196.00000001]` in raw units. -/
def c3shares : List Nat :=
  [1399999999, 9799999999, 9799999999, 9799999999, 9799999999,
   9799999999, 19600000001]

/-- Seven nodes with equal work 100 (produced only). -/
def c4works : List (Nat × Nat) :=
  [(100, 0), (100, 0), (100, 0), (100, 0), (100, 0), (100, 0), (100, 0)]

/-- The universal transaction built at batch 1 over `c4works`:
input `136.98630136`, seven kernel shares, the custodian `safe`
output and the light output. -/
def c4txUniversal : BuiltTx :=
  ⟨13698630136,
   [978473580, 978473580, 978473580, 978473580, 978473580, 978473580,
    978473580, 5479452052, 1369863024]⟩

/-- The legacy transaction built at batch 1 over `c4works`: input
`123.28767117`, seven node shares and the `DIFF` output. -/
def c4txLegacy : BuiltTx :=
  ⟨12328767117,
   [1761252445, 1761252445, 1761252445, 1761252445, 1761252445,
    1761252445, 1761252445, 2]⟩

/-- A concrete view-key derivation used in genesis scenarios. -/
def specDeriveView (s : Nat) : Nat := s + 100

/-- A genesis whose seven nodes all share one (otherwise valid)
address. -/
def c8dupGenesis : Genesis :=
  ⟨0, List.replicate 7 ⟨⟨1, 101⟩, NewInteger 10000⟩⟩

/-- A genesis with only six nodes. -/
def c8smallGenesis : Genesis :=
  ⟨0, List.replicate 6 ⟨⟨1, 101⟩, NewInteger 10000⟩⟩

/-- A valid seven-node genesis with distinct addresses. -/
def c9genesis : Genesis :=
  ⟨0, [⟨⟨1, 101⟩, NewInteger 10000⟩, ⟨⟨2, 102⟩, NewInteger 10000⟩,
       ⟨⟨3, 103⟩, NewInteger 10000⟩, ⟨⟨4, 104⟩, NewInteger 10000⟩,
       ⟨⟨5, 105⟩, NewInteger 10000⟩, ⟨⟨6, 106⟩, NewInteger 10000⟩,
       ⟨⟨7, 107⟩, NewInteger 10000⟩]⟩

/-! ### Helper lemmas -/

theorem div_add_div_le (x y T : Nat) : x / T + y / T ≤ (x + y) / T := by
  rcases Nat.eq_zero_or_pos T with h | h
  · simp [h]
  · rw [Nat.le_div_iff_mul_le h, Nat.add_mul]
    exact Nat.add_le_add (Nat.div_mul_le_self x T) (Nat.div_mul_le_self y T)

theorem sum_map_div_le (l : List Nat) (B T : Nat) :
    (l.map fun w => w * B / T).sum ≤ l.sum * B / T := by
  induction l with
  | nil => simp
  | cons a l ih =>
    simp only [List.map_cons, List.sum_cons]
    calc a * B / T + (l.map fun w => w * B / T).sum
        ≤ a * B / T + l.sum * B / T := Nat.add_le_add_left ih _
      _ ≤ (a * B + l.sum * B) / T := div_add_div_le _ _ _
      _ = (a + l.sum) * B / T := by rw [Nat.add_mul]

theorem rationProduct_sum_le (l : List Nat) (base : Nat) :
    (l.map fun w => rationProduct w l.sum base).sum ≤ base := by
  have h : (l.map fun w => w * base / l.sum).sum ≤ l.sum * base / l.sum :=
    sum_map_div_le l base l.sum
  have h2 : l.sum * base / l.sum ≤ base := by
    rcases Nat.eq_zero_or_pos l.sum with h0 | h0
    · simp [h0]
    · rw [Nat.mul_div_cancel_left base h0]
  exact le_trans h h2

theorem sum_map_const {α : Type} (l : List α) (c : Nat) :
    (l.map fun _ => c).sum = l.length * c := by
  induction l with
  | nil => simp
  | cons a l ih =>
    simp only [List.map_cons, List.sum_cons, List.length_cons, ih]
    rw [Nat.add_mul, Nat.one_mul, Nat.add_comm]

theorem if_pos_count (m d r : Nat) :
    (if 0 < r then m + d * r else m) = m + d * r := by
  cases r with
  | zero => simp
  | succ n => simp

theorem if_pos_mint (x : Nat) :
    (if 0 < x then MintPool - x else MintPool) = MintPool - x := by
  cases x with
  | zero => simp
  | succ n => simp

theorem poolSizeUniversal_eq (b : Nat) :
    poolSizeUniversal b =
      MintPool - ((mintIter fU (b / MintYearBatches) (0, MintPool)).1 +
        gU (mintIter fU (b / MintYearBatches) (0, MintPool)).2 *
          (b % MintYearBatches)) := by
  simp only [poolSizeUniversal]
  rw [if_pos_count, if_pos_mint]

theorem poolSizeLegacy_eq (b : Nat) :
    poolSizeLegacy b =
      MintPool - ((mintIter fL (b / MintYearBatches) (0, MintPool)).1 +
        gL (mintIter fL (b / MintYearBatches) (0, MintPool)).2 *
          (b % MintYearBatches)) := by
  simp only [poolSizeLegacy]
  rw [if_pos_count, if_pos_mint]

theorem mintAcc_le_succ (f g : Nat → Nat)
    (hfg : ∀ p, g p * (MintYearBatches - 1) ≤ f p) (b : Nat) :
    (mintIter f (b / MintYearBatches) (0, MintPool)).1 +
      g (mintIter f (b / MintYearBatches) (0, MintPool)).2 *
        (b % MintYearBatches) ≤
    (mintIter f ((b + 1) / MintYearBatches) (0, MintPool)).1 +
      g (mintIter f ((b + 1) / MintYearBatches) (0, MintPool)).2 *
        ((b + 1) % MintYearBatches) := by
  have hM : 0 < MintYearBatches := by decide
  have hmod : b % MintYearBatches < MintYearBatches := Nat.mod_lt _ hM
  have hdm : MintYearBatches * (b / MintYearBatches) + b % MintYearBatches = b :=
    Nat.div_add_mod b MintYearBatches
  by_cases hr : b % MintYearBatches = MintYearBatches - 1
  · have hb1 : b + 1 = MintYearBatches * (b / MintYearBatches + 1) := by
      rw [Nat.mul_add, Nat.mul_one]
      omega
    have hdiv : (b + 1) / MintYearBatches = b / MintYearBatches + 1 := by
      rw [hb1, Nat.mul_div_cancel_left _ hM]
    have hmod1 : (b + 1) % MintYearBatches = 0 := by
      rw [hb1]; exact Nat.mul_mod_right _ _
    rw [hdiv, hmod1, hr]
    simp only [mintIter, Nat.mul_zero, Nat.add_zero]
    exact Nat.add_le_add_left (hfg _) _
  · have hb1 : b + 1 =
        MintYearBatches * (b / MintYearBatches) + (b % MintYearBatches + 1) := by
      omega
    have hlt : b % MintYearBatches + 1 < MintYearBatches := by omega
    have hdiv : (b + 1) / MintYearBatches = b / MintYearBatches := by
      rw [hb1, Nat.mul_add_div hM, Nat.div_eq_of_lt hlt, Nat.add_zero]
    have hmod1 : (b + 1) % MintYearBatches = b % MintYearBatches + 1 := by
      rw [hb1, Nat.mul_add_mod, Nat.mod_eq_of_lt hlt]
    rw [hdiv, hmod1, Nat.mul_succ]
    omega

theorem yearly_bound_universal : ∀ p, gU p * (MintYearBatches - 1) ≤ fU p := by
  intro p
  simp only [gU, fU, MintYearShares, MintYearBatches]
  omega

theorem yearly_bound_legacy : ∀ p, gL p * (MintYearBatches - 1) ≤ fL p := by
  intro p
  simp only [gL, fL, MintYearShares, MintYearBatches]
  omega

/-! ### Claim theorems -/

/-- Claim C6: the remaining pool never grows from one batch to the
next, for both the universal and the legacy variant, and both pool
functions are bounded by `MintPool`. -/
theorem mint_c6_pool_monotone (b : Nat) :
    poolSizeUniversal (b + 1) ≤ poolSizeUniversal b ∧
    poolSizeLegacy (b + 1) ≤ poolSizeLegacy b ∧
    poolSizeUniversal b ≤ MintPool ∧ poolSizeLegacy b ≤ MintPool := by
  refine ⟨?_, ?_, ?_, ?_⟩
  · rw [poolSizeUniversal_eq, poolSizeUniversal_eq]
    exact Nat.sub_le_sub_left (mintAcc_le_succ fU gU yearly_bound_universal b) _
  · rw [poolSizeLegacy_eq, poolSizeLegacy_eq]
    exact Nat.sub_le_sub_left (mintAcc_le_succ fL gL yearly_bound_legacy b) _
  · rw [poolSizeUniversal_eq]; exact Nat.sub_le _ _
  · rw [poolSizeLegacy_eq]; exact Nat.sub_le _ _

/-- Claim C7 counterexample: `poolSizeUniversal 1` is not
`500000 - 136` whole units. Under the 8-decimal fixed-point
arithmetic the daily share is `136.98630136`, not `136`, so the value
is `499863.01369864`. -/
theorem mint_c7_counterexample : poolSizeUniversal 1 ≠ NewInteger 499864 := by
  decide

/-- Claim C7 (amended): `poolSizeUniversal` takes the values
`500000` at 0, `499863.01369864` (raw `49986301369864`) at 1 — the
daily share `500000/10/365` floors at 8 decimals to `136.98630136`,
not to the whole unit `136` — `450000` at 365 and `405000` at 730. -/
theorem mint_c7_amended :
    poolSizeUniversal 0 = NewInteger 500000 ∧
    poolSizeUniversal 1 = 49986301369864 ∧
    poolSizeUniversal 365 = NewInteger 450000 ∧
    poolSizeUniversal 730 = NewInteger 405000 := by
  exact ⟨by decide, by decide, by decide, by decide⟩

/-- Claim C10: for a timestamp strictly below the node epoch,
`PledgeAmount` clamps to the zero-elapsed pledge
`pledgeAmount 0 = MintLiquidity / MintNodeMaximum = 10000`. -/
theorem mint_c10_pledge_clamp (epoch ts : Nat) (h : ts < epoch) :
    PledgeAmount epoch ts = pledgeAmount 0 ∧
    pledgeAmount 0 = NewInteger 10000 := by
  constructor
  · unfold PledgeAmount
    rw [if_pos h]
  · decide

/-- Witness for claim C10 at `epoch = 5`, `ts = 3`. -/
theorem mint_c10_witness :
    PledgeAmount 5 3 = pledgeAmount 0 ∧ pledgeAmount 0 = NewInteger 10000 :=
  mint_c10_pledge_clamp 5 3 (by decide)

/-- Claim C2: with a positive average, the distributor clamp is
exactly the piecewise function of the spec table: `x ≥ 7·avg ↦ 2·avg`;
`avg ≤ x < 7·avg ↦ x/6 + 5·avg/6`; `avg/7 < x < avg ↦ x`;
`x ≤ avg/7 ↦ avg/7`. -/
theorem mint_c2_clamp_table (avg x : Nat) (havg : 0 < avg) :
    (7 * avg ≤ x → clampWork avg x = 2 * avg) ∧
    (avg ≤ x ∧ x < 7 * avg → clampWork avg x = x / 6 + 5 * avg / 6) ∧
    (avg / 7 < x ∧ x < avg → clampWork avg x = x) ∧
    (x ≤ avg / 7 → clampWork avg x = avg / 7) := by
  unfold clampWork
  refine ⟨fun h => ?_, fun h => ?_, fun h => ?_, fun h => ?_⟩ <;>
    split_ifs <;> omega

/-- Witness for claim C2: a work of 0 against average 10 is raised to
`10 / 7 = 1`. -/
theorem mint_c2_witness : 0 < (10 : Nat) ∧ clampWork 10 0 = 10 / 7 :=
  ⟨by decide, (mint_c2_clamp_table 10 0 (by decide)).2.2.2 (by decide)⟩

/-- Claim C1: for a timestamp passing the window checks of both gates,
the result is related to the last persisted distribution exactly as
the table states, with the universal daily share and the legacy `full`
amount as per-batch values. -/
theorem mint_c1_gate_table (kmb kme epoch ts : Nat) (vo mainnet : Bool)
    (dist : MintDistribution)
    (h1 : epoch < ts) (h2 : 1 ≤ gateBatch epoch ts)
    (hU1 : kmb ≤ gateHourOfDay epoch ts)
    (hU2 : gateHourOfDay epoch ts ≤ kme)
    (hL1 : legacyKmb mainnet (gateBatch epoch ts) kmb ≤ gateHourOfDay epoch ts)
    (hL2 : gateHourOfDay epoch ts ≤ legacyKme mainnet (gateBatch epoch ts) kme) :
    (gateBatch epoch ts < dist.batch →
        checkUniversalMintPossibility kmb kme epoch ts vo dist = (0, 0) ∧
        checkLegacyMintPossibility kmb kme epoch mainnet ts vo dist = (0, 0)) ∧
    (gateBatch epoch ts = dist.batch →
        checkUniversalMintPossibility kmb kme epoch ts vo dist =
          (if vo then (gateBatch epoch ts, dist.amount) else (0, 0)) ∧
        checkLegacyMintPossibility kmb kme epoch mainnet ts vo dist =
          (if vo then (gateBatch epoch ts, dist.amount) else (0, 0))) ∧
    (dist.batch < gateBatch epoch ts →
        checkUniversalMintPossibility kmb kme epoch ts vo dist =
          (gateBatch epoch ts,
           universalPerBatch (gateBatch epoch ts) *
             (gateBatch epoch ts - dist.batch)) ∧
        checkLegacyMintPossibility kmb kme epoch mainnet ts vo dist =
          (gateBatch epoch ts,
           legacyPerBatch (gateBatch epoch ts) *
             (gateBatch epoch ts - dist.batch))) := by
  have ha : ¬ (ts ≤ epoch) := by omega
  have hb : ¬ (gateBatch epoch ts < 1) := by omega
  have hU : ¬ (gateHourOfDay epoch ts < kmb ∨ kme < gateHourOfDay epoch ts) := by
    omega
  have hL : ¬ (gateHourOfDay epoch ts < legacyKmb mainnet (gateBatch epoch ts) kmb ∨
      legacyKme mainnet (gateBatch epoch ts) kme < gateHourOfDay epoch ts) := by
    omega
  refine ⟨fun hlt => ⟨?_, ?_⟩, fun heq => ⟨?_, ?_⟩, fun hgt => ⟨?_, ?_⟩⟩
  · unfold checkUniversalMintPossibility
    rw [if_neg ha, if_neg hb, if_neg hU, if_pos hlt]
  · unfold checkLegacyMintPossibility
    rw [if_neg ha, if_neg hb, if_neg hL, if_pos hlt]
  · unfold checkUniversalMintPossibility
    have hge : ¬ (gateBatch epoch ts < dist.batch) := by omega
    rw [if_neg ha, if_neg hb, if_neg hU, if_neg hge, if_pos heq]
  · unfold checkLegacyMintPossibility
    have hge : ¬ (gateBatch epoch ts < dist.batch) := by omega
    rw [if_neg ha, if_neg hb, if_neg hL, if_neg hge, if_pos heq]
  · unfold checkUniversalMintPossibility
    have hge : ¬ (gateBatch epoch ts < dist.batch) := by omega
    have hne : ¬ (gateBatch epoch ts = dist.batch) := by omega
    rw [if_neg ha, if_neg hb, if_neg hU, if_neg hge, if_neg hne]
  · unfold checkLegacyMintPossibility
    have hge : ¬ (gateBatch epoch ts < dist.batch) := by omega
    have hne : ¬ (gateBatch epoch ts = dist.batch) := by omega
    rw [if_neg ha, if_neg hb, if_neg hL, if_neg hge, if_neg hne]

/-- Witness for claim C1 at epoch 0, timestamp 25 hours (batch 1,
hour 1, window [0, 23]), last distribution batch 0: both gates mint
one batch of their per-batch share. -/
theorem mint_c1_witness :
    checkUniversalMintPossibility 0 23 0 90000000000000 false
      ⟨0, 5, "KERNELNODE"⟩ = (1, 13698630136) ∧
    checkLegacyMintPossibility 0 23 0 false 90000000000000 false
      ⟨0, 5, "KERNELNODE"⟩ = (1, 12328767117) := by
  have h := mint_c1_gate_table 0 23 0 90000000000000 false false
    ⟨0, 5, "KERNELNODE"⟩ (by decide) (by decide) (by decide) (by decide)
    (by decide) (by decide)
  have h3 := h.2.2 (by decide)
  constructor
  · rw [h3.1]; decide
  · rw [h3.2]; decide

/-- Claim C5: both gates return no mint when the timestamp is at or
before the epoch, when the batch count is below 1, or when the hour of
day falls outside the effective window; the legacy effective window is
[6, 18] exactly for mainnet with batch below 72, and the config
defaults otherwise. -/
theorem mint_c5_window_checks (kmb kme epoch ts : Nat) (vo mainnet : Bool)
    (dist : MintDistribution) :
    (ts ≤ epoch →
        checkUniversalMintPossibility kmb kme epoch ts vo dist = (0, 0) ∧
        checkLegacyMintPossibility kmb kme epoch mainnet ts vo dist = (0, 0)) ∧
    (gateBatch epoch ts < 1 →
        checkUniversalMintPossibility kmb kme epoch ts vo dist = (0, 0) ∧
        checkLegacyMintPossibility kmb kme epoch mainnet ts vo dist = (0, 0)) ∧
    (gateHourOfDay epoch ts < kmb ∨ kme < gateHourOfDay epoch ts →
        checkUniversalMintPossibility kmb kme epoch ts vo dist = (0, 0)) ∧
    (gateHourOfDay epoch ts < legacyKmb mainnet (gateBatch epoch ts) kmb ∨
        legacyKme mainnet (gateBatch epoch ts) kme < gateHourOfDay epoch ts →
        checkLegacyMintPossibility kmb kme epoch mainnet ts vo dist = (0, 0)) ∧
    legacyKmb mainnet (gateBatch epoch ts) kmb =
      (if mainnet = true ∧ gateBatch epoch ts < MainnetMintPeriodForkBatch
       then 6 else kmb) ∧
    legacyKme mainnet (gateBatch epoch ts) kme =
      (if mainnet = true ∧ gateBatch epoch ts < MainnetMintPeriodForkBatch
       then 18 else kme) := by
  refine ⟨fun h => ⟨?_, ?_⟩, fun h => ⟨?_, ?_⟩, fun h => ?_, fun h => ?_,
    rfl, rfl⟩
  · unfold checkUniversalMintPossibility
    rw [if_pos h]
  · unfold checkLegacyMintPossibility
    rw [if_pos h]
  · unfold checkUniversalMintPossibility
    by_cases h0 : ts ≤ epoch
    · rw [if_pos h0]
    · rw [if_neg h0, if_pos h]
  · unfold checkLegacyMintPossibility
    by_cases h0 : ts ≤ epoch
    · rw [if_pos h0]
    · rw [if_neg h0, if_pos h]
  · unfold checkUniversalMintPossibility
    by_cases h0 : ts ≤ epoch
    · rw [if_pos h0]
    · by_cases h1 : gateBatch epoch ts < 1
      · rw [if_neg h0, if_pos h1]
      · rw [if_neg h0, if_neg h1, if_pos h]
  · unfold checkLegacyMintPossibility
    by_cases h0 : ts ≤ epoch
    · rw [if_pos h0]
    · by_cases h1 : gateBatch epoch ts < 1
      · rw [if_neg h0, if_pos h1]
      · rw [if_neg h0, if_neg h1, if_pos h]

/-- Witness for claim C5: a timestamp at the epoch yields no mint from
either gate. -/
theorem mint_c5_witness :
    checkUniversalMintPossibility 6 18 10 5 false ⟨0, 0, "x"⟩ = (0, 0) ∧
    checkLegacyMintPossibility 6 18 10 true 5 false ⟨0, 0, "x"⟩ = (0, 0) :=
  (mint_c5_window_checks 6 18 10 5 false true ⟨0, 0, "x"⟩).1 (by decide)

theorem distribute_length (epoch ts : Nat) (ready : Bool) (thr : Nat)
    (works : List (Nat × Nat)) (base : Nat) (ws : List Nat)
    (h : distributeKernelMintByWorks epoch ts ready thr works base =
      Except.ok ws) :
    ws.length = works.length := by
  simp only [distributeKernelMintByWorks] at h
  split at h
  · simp at h
  · split at h
    · injection h with h
      subst h
      simp
    · split at h
      · simp at h
      · split at h
        · simp at h
        · split at h
          · simp at h
          · injection h with h
            subst h
            simp

theorem distribute_sum_le (epoch ts : Nat) (ready : Bool) (thr : Nat)
    (works : List (Nat × Nat)) (base : Nat) (ws : List Nat)
    (h : distributeKernelMintByWorks epoch ts ready thr works base =
      Except.ok ws) :
    ws.sum ≤ base := by
  simp only [distributeKernelMintByWorks] at h
  split at h
  · simp at h
  · split at h
    · injection h with h
      subst h
      rw [sum_map_const, Nat.mul_comm]
      exact Nat.div_mul_le_self _ _
    · split at h
      · simp at h
      · split at h
        · simp at h
        · split at h
          · simp at h
          · injection h with h
            subst h
            exact rationProduct_sum_le _ _

/-- Claim C3 counterexample: on the spec scenario works
`[0, 100, 100, 100, 100, 100, 1000]` the zero-work node does not stay
at 0 through the clamp: it is raised to `avg/7 = 14.28571428`, the
clamped total is `714.28571423` (not 700), and the zero node's final
share is `13.99999999`, not zero. -/
theorem mint_c3_counterexample :
    clampWork (NewInteger 100) 0 = 1428571428 ∧
    ((c3works.map rawWork).map (clampWork (NewInteger 100))).sum =
      71428571423 ∧
    distributeKernelMintByWorks 0 86400000000000 true 5 c3works
      (NewInteger 700) = Except.ok c3shares ∧
    c3shares.head? ≠ some 0 :=
  ⟨by decide, by decide, by decide, by decide⟩

/-- Claim C3 (amended): a node with raw work 0 is kept in the output
list (the result has one share per input node) and is excluded from
the statistics (the statistics fold skips zero works), but the clamp
step raises work 0 to `avg/7` through the `x ≤ avg/7` branch, so the
node receives the positive share `⌊(avg/7)·base/totalW⌋` rather than
zero; on `[0, 100, 100, 100, 100, 100, 1000]` the statistics are
valid 6, min 100, max 1000, total 1500 and avg 100, the 1000 node is
clamped to 200, each 100 node to 99.99999999, the 0 node to
14.28571428, and the shares normalize over totalW = 714.28571423. -/
theorem mint_c3_amended :
    (∀ s : WorkStats, statsStep s 0 = s) ∧
    (∀ avg, 0 < avg → clampWork avg 0 = avg / 7) ∧
    (∀ epoch ts ready thr works base ws,
        distributeKernelMintByWorks epoch ts ready thr works base =
          Except.ok ws → ws.length = works.length) ∧
    workStats (c3works.map rawWork) =
      ⟨6, NewInteger 100, NewInteger 1000, NewInteger 1500⟩ ∧
    (c3works.map rawWork).map (clampWork (NewInteger 100)) =
      [1428571428, 9999999999, 9999999999, 9999999999, 9999999999,
       9999999999, 20000000000] ∧
    distributeKernelMintByWorks 0 86400000000000 true 5 c3works
      (NewInteger 700) = Except.ok c3shares := by
  refine ⟨?_, ?_, ?_, by decide, by decide, by decide⟩
  · intro s
    simp [statsStep]
  · intro avg h
    unfold clampWork
    split_ifs <;> omega
  · intro epoch ts ready thr works base ws h
    exact distribute_length epoch ts ready thr works base ws h

/-- Witness for the amended claim C3: the statistics fold skips a zero
work and the clamp raises 0 to `7 / 7 = 1` for average 7. -/
theorem mint_c3_witness :
    statsStep ⟨1, 2, 3, 4⟩ 0 = ⟨1, 2, 3, 4⟩ ∧ clampWork 7 0 = 7 / 7 :=
  ⟨mint_c3_amended.1 ⟨1, 2, 3, 4⟩, mint_c3_amended.2.1 7 (by decide)⟩

theorem trySlash_le (mainnet : Bool) (batch : Nat) (prev : MintDistribution)
    (curGroup : String) (a a2 : Nat)
    (h : trySlash mainnet batch prev curGroup a = some a2) : a ≤ a2 := by
  unfold trySlash at h
  split at h
  · injection h with h
    omega
  · split at h
    · exact Option.noConfusion h
    · split at h
      · injection h with h
        omega
      · injection h with h
        omega

theorem buildUniversal_ok_sum (kmb kme epoch ts : Nat) (vo : Bool)
    (dist : MintDistribution) (ready : Bool) (thr : Nat)
    (works : List (Nat × Nat)) (mainnet : Bool) (prev : MintDistribution)
    (curGroup : String) (tx : BuiltTx)
    (h : buildUniversalMintTransaction kmb kme epoch ts vo dist ready thr
      works mainnet prev curGroup = Except.ok tx) :
    tx.outputs.sum = tx.inputAmount := by
  simp only [buildUniversalMintTransaction] at h
  set p := checkUniversalMintPossibility kmb kme epoch ts vo dist with hp
  split at h
  · simp at h
  · split at h
    · simp at h
    · rename_i mints hd
      split at h
      · simp at h
      · rename_i h1
        split at h
        · simp at h
        · rename_i h2
          split at h
          · simp at h
          · rename_i amount hs
            injection h with h
            subst h
            have hslash : p.2 ≤ amount :=
              trySlash_le mainnet p.1 prev curGroup p.2 amount hs
            rw [List.sum_append]
            simp only [List.sum_cons, List.sum_nil]
            omega

theorem buildUniversal_no_overshoot (kmb kme epoch ts : Nat) (vo : Bool)
    (dist : MintDistribution) (ready : Bool) (thr : Nat)
    (works : List (Nat × Nat)) (mainnet : Bool) (prev : MintDistribution)
    (curGroup : String) :
    buildUniversalMintTransaction kmb kme epoch ts vo dist ready thr works
      mainnet prev curGroup ≠ Except.error BuildErr.overshoot := by
  simp only [buildUniversalMintTransaction]
  set p := checkUniversalMintPossibility kmb kme epoch ts vo dist with hp
  split
  · simp
  · split
    · simp
    · rename_i mints hd
      have hsum : mints.sum ≤ p.2 / 10 * 5 :=
        distribute_sum_le epoch ts ready thr works (p.2 / 10 * 5) mints hd
      have h1 : ¬ (p.2 < mints.sum) := by omega
      rw [if_neg h1]
      have h2 : ¬ (p.2 < mints.sum + p.2 / 10 * 4) := by omega
      rw [if_neg h2]
      split
      · simp
      · simp

theorem buildLegacy_ok_sum (kmb kme epoch : Nat) (mainnet : Bool)
    (ts : Nat) (vo : Bool) (dist : MintDistribution) (hackAt ready : Bool)
    (thr : Nat) (works : List (Nat × Nat)) (tx : BuiltTx)
    (h : buildLegacyKerneNodeMintTransaction kmb kme epoch mainnet ts vo
      dist hackAt ready thr works = Except.ok tx) :
    tx.outputs.sum = tx.inputAmount := by
  simp only [buildLegacyKerneNodeMintTransaction] at h
  set p := checkLegacyMintPossibility kmb kme epoch mainnet ts vo dist
    with hp
  split at h
  · simp at h
  · split at h
    · simp at h
    · split at h
      · simp at h
      · split at h
        · simp at h
        · rename_i mints hd
          split at h
          · simp at h
          · rename_i h1
            split at h
            · rename_i hdiff
              injection h with h
              subst h
              rw [List.sum_append]
              simp only [List.sum_cons, List.sum_nil]
              omega
            · rename_i hdiff
              injection h with h
              subst h
              simp only []
              omega

theorem buildLegacy_no_overshoot (kmb kme epoch : Nat) (mainnet : Bool)
    (ts : Nat) (vo : Bool) (dist : MintDistribution) (hackAt ready : Bool)
    (thr : Nat) (works : List (Nat × Nat)) :
    buildLegacyKerneNodeMintTransaction kmb kme epoch mainnet ts vo dist
      hackAt ready thr works ≠ Except.error BuildErr.overshoot := by
  simp only [buildLegacyKerneNodeMintTransaction]
  set p := checkLegacyMintPossibility kmb kme epoch mainnet ts vo dist
    with hp
  split
  · simp
  · split
    · simp
    · split
      · simp
      · split
        · simp
        · rename_i mints hd
          have hsum : mints.sum ≤ p.2 :=
            distribute_sum_le epoch ts ready thr works p.2 mints hd
          have h1 : ¬ (p.2 < mints.sum) := by omega
          rw [if_neg h1]
          split
          · simp
          · simp

/-- Claim C4: whenever the builders succeed, the distributor's summed
shares stay within the base amount, the fatal overshoot checks never
fire, and the grand total of the built transaction's outputs equals
the (possibly slash-adjusted) mint input amount, the remainder going
to the light output (universal) or the DIFF output (legacy, only when
positive). -/
theorem mint_c4_builder_totals (kmb kme epoch ts : Nat) (vo : Bool)
    (dist : MintDistribution) (ready : Bool) (thr : Nat)
    (works : List (Nat × Nat)) (mainnet : Bool) (prev : MintDistribution)
    (curGroup : String) (hackAt : Bool) (base : Nat) :
    (∀ ws, distributeKernelMintByWorks epoch ts ready thr works base =
        Except.ok ws → ws.sum ≤ base) ∧
    buildUniversalMintTransaction kmb kme epoch ts vo dist ready thr works
      mainnet prev curGroup ≠ Except.error BuildErr.overshoot ∧
    (∀ tx, buildUniversalMintTransaction kmb kme epoch ts vo dist ready
        thr works mainnet prev curGroup = Except.ok tx →
        tx.outputs.sum = tx.inputAmount) ∧
    buildLegacyKerneNodeMintTransaction kmb kme epoch mainnet ts vo dist
      hackAt ready thr works ≠ Except.error BuildErr.overshoot ∧
    (∀ tx, buildLegacyKerneNodeMintTransaction kmb kme epoch mainnet ts vo
        dist hackAt ready thr works = Except.ok tx →
        tx.outputs.sum = tx.inputAmount) :=
  ⟨fun ws h => distribute_sum_le epoch ts ready thr works base ws h,
   buildUniversal_no_overshoot kmb kme epoch ts vo dist ready thr works
     mainnet prev curGroup,
   fun tx h => buildUniversal_ok_sum kmb kme epoch ts vo dist ready thr
     works mainnet prev curGroup tx h,
   buildLegacy_no_overshoot kmb kme epoch mainnet ts vo dist hackAt ready
     thr works,
   fun tx h => buildLegacy_ok_sum kmb kme epoch mainnet ts vo dist hackAt
     ready thr works tx h⟩

/-- Witness for claim C4: both builders at batch 1 over seven
equal-work nodes produce transactions whose outputs sum to the input
amount. -/
theorem mint_c4_witness :
    buildUniversalMintTransaction 6 18 0 108000000000000 false
      ⟨0, 0, "UNIVERSAL"⟩ true 5 c4works false ⟨0, 0, "UNIVERSAL"⟩
      "UNIVERSAL" = Except.ok c4txUniversal ∧
    c4txUniversal.outputs.sum = c4txUniversal.inputAmount ∧
    buildLegacyKerneNodeMintTransaction 6 18 0 false 108000000000000 false
      ⟨0, 0, "KERNELNODE"⟩ false true 5 c4works = Except.ok c4txLegacy ∧
    c4txLegacy.outputs.sum = c4txLegacy.inputAmount :=
  ⟨by decide,
   (mint_c4_builder_totals 6 18 0 108000000000000 false ⟨0, 0, "UNIVERSAL"⟩
     true 5 c4works false ⟨0, 0, "UNIVERSAL"⟩ "UNIVERSAL" false 0).2.2.1
     c4txUniversal (by decide),
   by decide,
   (mint_c4_builder_totals 6 18 0 108000000000000 false ⟨0, 0, "KERNELNODE"⟩
     true 5 c4works false ⟨0, 0, "KERNELNODE"⟩ "KERNELNODE" false 0).2.2.2.2
     c4txLegacy (by decide)⟩

/-- Claim C8 (code bug): `readGenesis` accepts a genesis whose seven
nodes all share one address, because the source never inserts into
`inputsFilter`, so the duplicate check can never fire; the node-count
check does reject a six-node genesis. -/
theorem genesis_c8_duplicate_accepted :
    readGenesis specDeriveView c8dupGenesis = Except.ok c8dupGenesis ∧
    ¬ (c8dupGenesis.nodes.map GNode.address).Nodup ∧
    readGenesis specDeriveView c8smallGenesis =
      Except.error GenesisErr.inputsNumber :=
  ⟨by decide, by decide, by decide⟩

/-- Claim C9: for a genesis accepted by `readGenesis` (with a nonzero
network id), `LoadGenesis` persists the snapshots and writes the
network key exactly when no record is stored; an equal stored record
is a no-op success; a different stored record is the fatal network
mismatch, with nothing persisted or rewritten. -/
theorem genesis_c9_network_key (deriveView : Nat → Nat)
    (hashG : Genesis → Nat) (g : Genesis) (stored : Option Nat)
    (hok : readGenesis deriveView g = Except.ok g)
    (hnz : hashG g ≠ 0) :
    (stored = none →
        LoadGenesis deriveView hashG g stored =
          ⟨none, true, some (hashG g)⟩) ∧
    (stored = some (hashG g) →
        LoadGenesis deriveView hashG g stored = ⟨none, false, none⟩) ∧
    (∀ other, stored = some other → other ≠ hashG g →
        LoadGenesis deriveView hashG g stored =
          ⟨some GenesisErr.networkMismatch, false, none⟩) := by
  refine ⟨fun h => ?_, fun h => ?_, fun other h hne => ?_⟩ <;>
    subst h <;> simp only [LoadGenesis, hok]
  · simp only [Option.getD_none, Option.isSome_none]
    rw [if_neg (show ¬ ((0 : Nat) = hashG g) by omega)]
    simp
  · simp
  · simp only [Option.getD_some, Option.isSome_some]
    rw [if_neg hne]
    simp

/-- Witness for claim C9: a valid seven-node genesis with no stored
network record initializes and writes the network id. -/
theorem genesis_c9_witness :
    LoadGenesis specDeriveView (fun _ => 7) c9genesis none =
      ⟨none, true, some 7⟩ := by
  have h := genesis_c9_network_key specDeriveView (fun _ => 7) c9genesis
    none (by decide) (by decide)
  exact h.1 rfl
